import Mathlib

/-!
Shallow embedding of `walk_convex_hull.go` (neuvideo/vmaf).

The repository builds a per-asset bitrate/resolution quality ladder: for a
descending sequence of target bitrates it encodes the source at two candidate
resolutions, scores both with VMAF, and keeps the better one, walking a fixed
resolution ladder downwards.

The deterministic control flow of the Go file is transcribed directly:
`resolutions`, `GetNextResolution`, `IntMin`, `GetTargetRates`,
`GetOptimalResolutionForRate` and `WalkConvexHull`.  The two external ffmpeg
invocations (`EncodeVideo` and the scoring run inside `ComputeVmaf`) are
processes outside the program; their outcomes are modelled as an oracle
(`Collaborator`) keyed by the (resolution, rate) pair that determines the file
names the Go code passes to ffmpeg.  Go `float64` VMAF scores are modelled as
rationals (the code only compares scores, it never computes with them), and Go
`int` as `Int`.  File-system effects of the resolver (creation and removal of
encoded files and VMAF log files) are recorded in an explicit artifact trace so
that cleanup claims can be stated.
-/

set_option maxHeartbeats 1600000
set_option maxRecDepth 8000

/-- A video resolution, as in the Go `Resolution` struct: a height/width pair.
Ladder ordering compares heights only. -/
structure Resolution where
  Height : Int
  Width : Int
deriving DecidableEq

/-- The fixed resolution ladder, `var resolutions` in the Go file, ordered by
strictly decreasing height. -/
def resolutions : List Resolution :=
  [⟨2160, 3840⟩, ⟨1440, 2560⟩, ⟨1080, 1920⟩, ⟨720, 1280⟩, ⟨540, 960⟩,
   ⟨480, 854⟩, ⟨432, 768⟩, ⟨360, 640⟩, ⟨342, 608⟩, ⟨270, 480⟩, ⟨144, 256⟩]

/-- One point of the convex hull, as in the Go `ConvexHullPoint` struct. -/
structure ConvexHullPoint where
  Resolution : Resolution
  Rate : Int
  VmafScore : ℚ
deriving DecidableEq

/-- The Go zero value `ConvexHullPoint{}` returned on resolver failures. -/
def zeroHullPoint : ConvexHullPoint := ⟨⟨0, 0⟩, 0, 0⟩

/-- `GetNextResolution`: first ladder entry whose height is strictly below the
given resolution's height; the Go version returns an error when no entry
qualifies, modelled by `none`. -/
def GetNextResolution (resolution : Resolution) : Option Resolution :=
  resolutions.find? (fun res => decide (res.Height < resolution.Height))

/-- `IntMin` from the Go file. -/
def IntMin (a b : Int) : Int := if a < b then a else b

/-- The Go loop `for i := 500; i <= IntMin(rate, 10000); i += 500` collecting
`i` into a slice in ascending order. -/
def buildRates (m i : Int) : List Int :=
  if i ≤ m then i :: buildRates m (i + 500) else []
termination_by (m + 500 - i).toNat
decreasing_by simp_wf; omega

/-- `GetTargetRates`: rates 500, 1000, ... up to `IntMin rate 10000`, then
reversed in place (descending order). -/
def GetTargetRates (rate : Int) : List Int :=
  (buildRates (IntMin rate 10000) 500).reverse

/-- Oracle for the two external ffmpeg collaborators.  `encodeOk res rate` is
whether the `EncodeVideo` ffmpeg run for the encoded file at `(res, rate)`
succeeds.  `vmafRun res rate` is `none` when the scoring ffmpeg run inside
`ComputeVmaf` fails (the Go code then yields the sentinel score `-1` and no log
file is produced), and `some q` when it succeeds, writes the log file, and the
pooled mean VMAF parsed from it is `q`. -/
structure Collaborator where
  encodeOk : Resolution → Int → Bool
  vmafRun : Resolution → Int → Option ℚ

/-- Score delivered on the Go result channel by `ComputeVmaf`: `-1` when the
ffmpeg run failed, otherwise the value parsed from the log file. -/
def ComputeVmaf (c : Collaborator) (res : Resolution) (rate : Int) : ℚ :=
  match c.vmafRun res rate with
  | none => -1
  | some q => q

/-- Transient file-system artifacts created by a resolver call, keyed by the
(resolution, rate) pair embedded in the file name the Go code builds. -/
inductive Artifact where
  | encodedFile (res : Resolution) (rate : Int)
  | logFile (res : Resolution) (rate : Int)
deriving DecidableEq

/-- Result of one `GetOptimalResolutionForRate` call together with its effect
trace: the Go pair `(ConvexHullPoint, error)`, which encode and score
operations were launched, and which transient files were created and removed
during the call. -/
structure ResolveOutcome where
  point : ConvexHullPoint
  error : Option String
  encodesLaunched : List (Resolution × Int)
  scoresLaunched : List (Resolution × Int)
  created : List Artifact
  removed : List Artifact
deriving DecidableEq

/-- `GetOptimalResolutionForRate`, with its effect trace.  Control flow follows
the Go body line by line: ladder-exhaustion short-circuit; two encodes; joint
encode-failure check; two VMAF computations; removal of the two encoded files;
joint score-validity check; strict comparison with ties going to the lower
(next) resolution.  Log files are created by successful scoring runs and
removed inside `ParseVmafScoreFromLogFile`. -/
def GetOptimalResolutionForRateFull (c : Collaborator) (rate : Int)
    (candidateResolution : Resolution) : ResolveOutcome :=
  match GetNextResolution candidateResolution with
  | none =>
      { point := ⟨candidateResolution, rate, -1⟩, error := none,
        encodesLaunched := [], scoresLaunched := [], created := [], removed := [] }
  | some nextResolution =>
      let candidateEncodeSuccess := c.encodeOk candidateResolution rate
      let nextEncodeSuccess := c.encodeOk nextResolution rate
      let encodedCreated :=
        (if candidateEncodeSuccess then [Artifact.encodedFile candidateResolution rate] else [])
          ++ (if nextEncodeSuccess then [Artifact.encodedFile nextResolution rate] else [])
      if !candidateEncodeSuccess || !nextEncodeSuccess then
        { point := zeroHullPoint, error := some "failed to encode video",
          encodesLaunched := [(candidateResolution, rate), (nextResolution, rate)],
          scoresLaunched := [], created := encodedCreated, removed := [] }
      else
        let candidateResolutionVmaf := ComputeVmaf c candidateResolution rate
        let nextResolutionVmaf := ComputeVmaf c nextResolution rate
        let logsCreated :=
          (match c.vmafRun candidateResolution rate with
            | some _ => [Artifact.logFile candidateResolution rate]
            | none => [])
            ++ (match c.vmafRun nextResolution rate with
              | some _ => [Artifact.logFile nextResolution rate]
              | none => [])
        let removedAll := logsCreated ++
          [Artifact.encodedFile candidateResolution rate,
           Artifact.encodedFile nextResolution rate]
        if candidateResolutionVmaf < 0 ∨ nextResolutionVmaf < 0 then
          { point := zeroHullPoint, error := some "failed to compute VMAF",
            encodesLaunched := [(candidateResolution, rate), (nextResolution, rate)],
            scoresLaunched := [(candidateResolution, rate), (nextResolution, rate)],
            created := encodedCreated ++ logsCreated, removed := removedAll }
        else if candidateResolutionVmaf > nextResolutionVmaf then
          { point := ⟨candidateResolution, rate, candidateResolutionVmaf⟩, error := none,
            encodesLaunched := [(candidateResolution, rate), (nextResolution, rate)],
            scoresLaunched := [(candidateResolution, rate), (nextResolution, rate)],
            created := encodedCreated ++ logsCreated, removed := removedAll }
        else
          { point := ⟨nextResolution, rate, nextResolutionVmaf⟩, error := none,
            encodesLaunched := [(candidateResolution, rate), (nextResolution, rate)],
            scoresLaunched := [(candidateResolution, rate), (nextResolution, rate)],
            created := encodedCreated ++ logsCreated, removed := removedAll }

/-- The Go return value of `GetOptimalResolutionForRate`: the hull point and
the error of the call (effect trace projected away). -/
def GetOptimalResolutionForRate (c : Collaborator) (rate : Int)
    (candidateResolution : Resolution) : ConvexHullPoint × Option String :=
  ((GetOptimalResolutionForRateFull c rate candidateResolution).point,
   (GetOptimalResolutionForRateFull c rate candidateResolution).error)

/-- The loop body of `WalkConvexHull` over a list of target rates, carrying the
current resolution: on resolver failure return the hull accumulated so far with
the error, otherwise append the point and continue from its resolution. -/
def walkFrom (c : Collaborator) :
    Resolution → List Int → List ConvexHullPoint × Option String
  | _, [] => ([], none)
  | currentResolution, targetRate :: rest =>
      match GetOptimalResolutionForRate c targetRate currentResolution with
      | (_, some e) => ([], some e)
      | (pt, none) =>
          let tail := walkFrom c pt.Resolution rest
          (pt :: tail.1, tail.2)

/-- `WalkConvexHull`: walk the resolver over `GetTargetRates`, starting from
the reference resolution. -/
def WalkConvexHull (c : Collaborator) (referenceVideoResolution : Resolution)
    (referenceVideoRate : Int) : List ConvexHullPoint × Option String :=
  walkFrom c referenceVideoResolution (GetTargetRates referenceVideoRate)

/-- The current resolution held by the walk loop after processing a list of
target rates (unchanged by a failing step, since the loop exits there). -/
def currentAfter (c : Collaborator) :
    Resolution → List Int → Resolution
  | currentResolution, [] => currentResolution
  | currentResolution, targetRate :: rest =>
      match GetOptimalResolutionForRate c targetRate currentResolution with
      | (_, some _) => currentResolution
      | (pt, none) => currentAfter c pt.Resolution rest

/-- Repeated application of `GetNextResolution`, collecting the visited
resolutions until it reports no successor (fuelled, structurally). -/
def nextChain : Nat → Resolution → List Resolution
  | 0, _ => []
  | n + 1, r =>
      match GetNextResolution r with
      | none => []
      | some r2 => r2 :: nextChain n r2

/-- Collaborator whose encodes always succeed and whose scoring runs all
return the score 50. -/
def allGoodCollab : Collaborator := ⟨fun _ _ => true, fun _ _ => some 50⟩

/-- Collaborator whose encodes fail exactly at rate 500. -/
def failAt500Collab : Collaborator :=
  ⟨fun _ rate => if rate = 500 then false else true, fun _ _ => some 50⟩

/-- Collaborator that can only encode at ladder height 2160. -/
def leakCollab : Collaborator :=
  ⟨fun res _ => if res.Height = 2160 then true else false, fun _ _ => some 50⟩

/-- Collaborator producing a score tie: every scoring run returns 70. -/
def tieCollab : Collaborator := ⟨fun _ _ => true, fun _ _ => some 70⟩

lemma getNext_height_lt {r res : Resolution} (h : GetNextResolution r = some res) :
    res.Height < r.Height := by
  have hp := List.find?_some h
  simpa using hp

lemma getNext_mem {r res : Resolution} (h : GetNextResolution r = some res) :
    res ∈ resolutions :=
  List.mem_of_find?_eq_some h

lemma getNext_none_iff (r : Resolution) : GetNextResolution r = none ↔ r.Height ≤ 144 := by
  simp only [GetNextResolution, List.find?_eq_none, resolutions, List.mem_cons,
    List.not_mem_nil, decide_eq_true_eq]
  constructor
  · intro h
    have h144 := h ⟨144, 256⟩ (by simp)
    simpa using h144
  · rintro hr x (rfl | rfl | rfl | rfl | rfl | rfl | rfl | rfl | rfl | rfl | rfl | hx) <;>
      simp_all <;> omega

lemma find?_lt_maximal :
    ∀ (l : List Resolution), List.Pairwise (fun a b => b.Height < a.Height) l →
      ∀ (h : Int) (a : Resolution),
        l.find? (fun res => decide (res.Height < h)) = some a →
        ∀ b ∈ l, b.Height < h → b.Height ≤ a.Height := by
  intro l
  induction l with
  | nil => simp
  | cons hd tl ih =>
    intro hp h a hf b hb hbh
    by_cases hhd : hd.Height < h
    · rw [List.find?_cons_of_pos _ (by simpa using hhd)] at hf
      obtain rfl : hd = a := by simpa using hf
      rcases List.mem_cons.mp hb with rfl | hbtl
      · exact le_refl _
      · exact le_of_lt ((List.pairwise_cons.mp hp).1 b hbtl)
    · rw [List.find?_cons_of_neg _ (by simpa using hhd)] at hf
      rcases List.mem_cons.mp hb with rfl | hbtl
      · exact absurd hbh hhd
      · exact ih (List.pairwise_cons.mp hp).2 h a hf b hbtl hbh

lemma resolutions_descending :
    List.Pairwise (fun a b => b.Height < a.Height) resolutions := by
  decide

lemma resolve_success_cases (c : Collaborator) (rate : Int) (cand : Resolution)
    (pt : ConvexHullPoint) (h : GetOptimalResolutionForRate c rate cand = (pt, none)) :
    pt.Rate = rate ∧
      (pt.Resolution = cand ∨ GetNextResolution cand = some pt.Resolution) := by
  rw [GetOptimalResolutionForRate, GetOptimalResolutionForRateFull] at h
  rcases hn : GetNextResolution cand with _ | next
  · rw [hn] at h
    simp at h
    subst h
    exact ⟨rfl, Or.inl rfl⟩
  · rw [hn] at h
    simp only at h
    by_cases henc : (!c.encodeOk cand rate || !c.encodeOk next rate) = true
    · simp [henc] at h
    · simp only [henc] at h
      simp only [Bool.not_eq_true] at henc
      rw [if_neg (by simp [henc])] at h
      by_cases hscore : ComputeVmaf c cand rate < 0 ∨ ComputeVmaf c next rate < 0
      · simp [hscore] at h
      · rw [if_neg hscore] at h
        by_cases hcmp : ComputeVmaf c cand rate > ComputeVmaf c next rate
        · rw [if_pos hcmp] at h
          simp at h
          subst h
          exact ⟨rfl, Or.inl rfl⟩
        · rw [if_neg hcmp] at h
          simp at h
          subst h
          exact ⟨rfl, Or.inr rfl⟩

lemma walkFrom_heights (c : Collaborator) :
    ∀ (rates : List Int) (cur : Resolution),
      List.Chain (fun a b => b ≤ a) cur.Height
        (((walkFrom c cur rates).1).map (fun p => p.Resolution.Height)) := by
  intro rates
  induction rates with
  | nil => intro cur; simp [walkFrom]
  | cons r rest ih =>
    intro cur
    rcases hres : GetOptimalResolutionForRate c r cur with ⟨pt, err⟩
    cases err with
    | some e => simp [walkFrom, hres]
    | none =>
      have hle : pt.Resolution.Height ≤ cur.Height := by
        rcases (resolve_success_cases c r cur pt hres).2 with hEq | hNext
        · rw [hEq]
        · exact le_of_lt (getNext_height_lt hNext)
      simp only [walkFrom, hres, List.map_cons]
      exact List.Chain.cons hle (ih pt.Resolution)

lemma walkFrom_rates (c : Collaborator) :
    ∀ (rates : List Int) (cur : Resolution),
      (walkFrom c cur rates).2 = none →
      ((walkFrom c cur rates).1).map (fun p => p.Rate) = rates := by
  intro rates
  induction rates with
  | nil => intro cur _; simp [walkFrom]
  | cons r rest ih =>
    intro cur hsucc
    rcases hres : GetOptimalResolutionForRate c r cur with ⟨pt, err⟩
    cases err with
    | some e => simp [walkFrom, hres] at hsucc
    | none =>
      simp only [walkFrom, hres, List.map_cons] at hsucc ⊢
      rw [(resolve_success_cases c r cur pt hres).1, ih pt.Resolution hsucc]

lemma walkFrom_fail_at (c : Collaborator) :
    ∀ (k : Nat) (rates : List Int) (cur : Resolution) (rate : Int) (rest : List Int)
      (e : String),
      rates.drop k = rate :: rest →
      (walkFrom c cur (rates.take k)).2 = none →
      (GetOptimalResolutionForRate c rate (currentAfter c cur (rates.take k))).2 = some e →
      walkFrom c cur rates = ((walkFrom c cur (rates.take k)).1, some e) := by
  intro k
  induction k with
  | zero =>
    intro rates cur rate rest e hdrop hpre hfail
    rw [List.drop_zero] at hdrop
    subst hdrop
    simp only [List.take_zero, currentAfter] at hfail ⊢
    rcases hres : GetOptimalResolutionForRate c rate cur with ⟨pt, err⟩
    rw [hres] at hfail
    simp only at hfail
    subst hfail
    simp [walkFrom, hres]
  | succ k ih =>
    intro rates cur rate rest e hdrop hpre hfail
    cases rates with
    | nil => simp at hdrop
    | cons r rs =>
      rw [List.drop_succ_cons] at hdrop
      rw [List.take_succ_cons] at hpre hfail ⊢
      rcases hres : GetOptimalResolutionForRate c r cur with ⟨pt, err⟩
      cases err with
      | some e2 => simp [walkFrom, hres] at hpre
      | none =>
        simp only [walkFrom, hres] at hpre hfail ⊢
        simp only [currentAfter, hres] at hfail
        have hw := ih rs pt.Resolution rate rest e hdrop hpre hfail
        rw [hw]

lemma buildRates_mem (m : Int) : ∀ (i : Int), ∀ x ∈ buildRates m i,
    i ≤ x ∧ x ≤ m ∧ 500 ∣ (x - i) := by
  intro i
  induction i using buildRates.induct m with
  | case1 i hle ih =>
    intro x hx
    rw [buildRates, if_pos hle] at hx
    rcases List.mem_cons.mp hx with rfl | hx2
    · exact ⟨le_refl _, hle, by omega⟩
    · obtain ⟨h1, h2, h3⟩ := ih x hx2
      exact ⟨by omega, h2, by omega⟩
  | case2 i hle =>
    intro x hx
    rw [buildRates, if_neg hle] at hx
    simp at hx

lemma buildRates_ascending (m : Int) : ∀ (i : Int),
    List.Pairwise (fun a b => a < b) (buildRates m i) := by
  intro i
  induction i using buildRates.induct m with
  | case1 i hle ih =>
    rw [buildRates, if_pos hle]
    refine List.pairwise_cons.mpr ⟨?_, ih⟩
    intro x hx
    have := (buildRates_mem m (i + 500) x hx).1
    omega
  | case2 i hle =>
    rw [buildRates, if_neg hle]
    exact List.Pairwise.nil

lemma targetRates_spec_aux (rate : Int) :
    List.Pairwise (fun a b => b < a) (GetTargetRates rate) ∧
    (GetTargetRates rate).Nodup ∧
    ∀ x ∈ GetTargetRates rate,
      500 ≤ x ∧ x ≤ IntMin rate 10000 ∧ ∃ k : Int, 1 ≤ k ∧ x = 500 * k := by
  have hdesc : List.Pairwise (fun a b => b < a) (GetTargetRates rate) := by
    rw [GetTargetRates, List.pairwise_reverse]
    exact buildRates_ascending (IntMin rate 10000) 500
  refine ⟨hdesc, hdesc.imp (fun h => (ne_of_gt h)), ?_⟩
  intro x hx
  rw [GetTargetRates, List.mem_reverse] at hx
  obtain ⟨h1, h2, t, ht⟩ := buildRates_mem (IntMin rate 10000) 500 x hx
  exact ⟨h1, h2, t + 1, by omega, by omega⟩

lemma tie_break_aux (c : Collaborator) (rate : Int) (cand next : Resolution)
    (hnext : GetNextResolution cand = some next)
    (hce : c.encodeOk cand rate = true) (hne : c.encodeOk next rate = true)
    (hcs : 0 ≤ ComputeVmaf c cand rate) (hns : 0 ≤ ComputeVmaf c next rate) :
    GetOptimalResolutionForRate c rate cand =
      (if ComputeVmaf c cand rate > ComputeVmaf c next rate then
        ⟨cand, rate, ComputeVmaf c cand rate⟩
      else ⟨next, rate, ComputeVmaf c next rate⟩, none) := by
  have hsc : ¬(ComputeVmaf c cand rate < 0 ∨ ComputeVmaf c next rate < 0) := by
    push_neg
    exact ⟨hcs, hns⟩
  rw [GetOptimalResolutionForRate, GetOptimalResolutionForRateFull, hnext]
  simp only [hce, hne, Bool.not_true, Bool.or_self, Bool.false_eq_true, if_false,
    if_neg hsc]
  by_cases hcmp : ComputeVmaf c cand rate > ComputeVmaf c next rate
  · rw [if_pos hcmp, if_pos hcmp]
  · rw [if_neg hcmp, if_neg hcmp]

lemma resolve_floor_aux (c : Collaborator) (rate : Int) (cand : Resolution)
    (hnone : GetNextResolution cand = none) :
    GetOptimalResolutionForRateFull c rate cand =
      { point := ⟨cand, rate, -1⟩, error := none,
        encodesLaunched := [], scoresLaunched := [], created := [], removed := [] } := by
  rw [GetOptimalResolutionForRateFull, hnone]

lemma resolve_full_next (c : Collaborator) (rate : Int) (cand next : Resolution)
    (hnext : GetNextResolution cand = some next) :
    GetOptimalResolutionForRateFull c rate cand =
      (if (!c.encodeOk cand rate || !c.encodeOk next rate) then
        { point := zeroHullPoint, error := some "failed to encode video",
          encodesLaunched := [(cand, rate), (next, rate)],
          scoresLaunched := [],
          created := (if c.encodeOk cand rate then [Artifact.encodedFile cand rate] else [])
            ++ (if c.encodeOk next rate then [Artifact.encodedFile next rate] else []),
          removed := [] }
      else if ComputeVmaf c cand rate < 0 ∨ ComputeVmaf c next rate < 0 then
        { point := zeroHullPoint, error := some "failed to compute VMAF",
          encodesLaunched := [(cand, rate), (next, rate)],
          scoresLaunched := [(cand, rate), (next, rate)],
          created := (if c.encodeOk cand rate then [Artifact.encodedFile cand rate] else [])
            ++ (if c.encodeOk next rate then [Artifact.encodedFile next rate] else [])
            ++ ((match c.vmafRun cand rate with
                  | some _ => [Artifact.logFile cand rate]
                  | none => [])
              ++ (match c.vmafRun next rate with
                  | some _ => [Artifact.logFile next rate]
                  | none => [])),
          removed := ((match c.vmafRun cand rate with
                | some _ => [Artifact.logFile cand rate]
                | none => [])
              ++ (match c.vmafRun next rate with
                | some _ => [Artifact.logFile next rate]
                | none => []))
            ++ [Artifact.encodedFile cand rate, Artifact.encodedFile next rate] }
      else if ComputeVmaf c cand rate > ComputeVmaf c next rate then
        { point := ⟨cand, rate, ComputeVmaf c cand rate⟩, error := none,
          encodesLaunched := [(cand, rate), (next, rate)],
          scoresLaunched := [(cand, rate), (next, rate)],
          created := (if c.encodeOk cand rate then [Artifact.encodedFile cand rate] else [])
            ++ (if c.encodeOk next rate then [Artifact.encodedFile next rate] else [])
            ++ ((match c.vmafRun cand rate with
                  | some _ => [Artifact.logFile cand rate]
                  | none => [])
              ++ (match c.vmafRun next rate with
                  | some _ => [Artifact.logFile next rate]
                  | none => [])),
          removed := ((match c.vmafRun cand rate with
                | some _ => [Artifact.logFile cand rate]
                | none => [])
              ++ (match c.vmafRun next rate with
                | some _ => [Artifact.logFile next rate]
                | none => []))
            ++ [Artifact.encodedFile cand rate, Artifact.encodedFile next rate] }
      else
        { point := ⟨next, rate, ComputeVmaf c next rate⟩, error := none,
          encodesLaunched := [(cand, rate), (next, rate)],
          scoresLaunched := [(cand, rate), (next, rate)],
          created := (if c.encodeOk cand rate then [Artifact.encodedFile cand rate] else [])
            ++ (if c.encodeOk next rate then [Artifact.encodedFile next rate] else [])
            ++ ((match c.vmafRun cand rate with
                  | some _ => [Artifact.logFile cand rate]
                  | none => [])
              ++ (match c.vmafRun next rate with
                  | some _ => [Artifact.logFile next rate]
                  | none => [])),
          removed := ((match c.vmafRun cand rate with
                | some _ => [Artifact.logFile cand rate]
                | none => [])
              ++ (match c.vmafRun next rate with
                | some _ => [Artifact.logFile next rate]
                | none => []))
            ++ [Artifact.encodedFile cand rate, Artifact.encodedFile next rate] }) := by
  rw [GetOptimalResolutionForRateFull, hnext]

lemma resolve_fail_aux (c : Collaborator) (rate : Int) (cand next : Resolution)
    (hnext : GetNextResolution cand = some next)
    (h : c.encodeOk cand rate = false ∨ c.encodeOk next rate = false ∨
         ComputeVmaf c cand rate < 0 ∨ ComputeVmaf c next rate < 0) :
    (GetOptimalResolutionForRateFull c rate cand).point = zeroHullPoint ∧
    (GetOptimalResolutionForRateFull c rate cand).error.isSome = true := by
  rw [resolve_full_next c rate cand next hnext]
  by_cases hc : c.encodeOk cand rate = true
  · by_cases hn2 : c.encodeOk next rate = true
    · have hs : ComputeVmaf c cand rate < 0 ∨ ComputeVmaf c next rate < 0 := by
        rcases h with h | h | h | h
        · rw [hc] at h; cases h
        · rw [hn2] at h; cases h
        · exact Or.inl h
        · exact Or.inr h
      simp [hc, hn2, hs]
    · have hn2f : c.encodeOk next rate = false := by
        revert hn2
        cases c.encodeOk next rate <;> simp
      simp [hn2f]
  · have hcf : c.encodeOk cand rate = false := by
      revert hc
      cases c.encodeOk cand rate <;> simp
    simp [hcf]

lemma resolve_cleanup_aux (c : Collaborator) (rate : Int) (cand : Resolution)
    (h : (GetOptimalResolutionForRateFull c rate cand).error = none ∨
         (GetOptimalResolutionForRateFull c rate cand).error = some "failed to compute VMAF") :
    ∀ a ∈ (GetOptimalResolutionForRateFull c rate cand).created,
      a ∈ (GetOptimalResolutionForRateFull c rate cand).removed := by
  rcases hn : GetNextResolution cand with _ | next
  · rw [resolve_floor_aux c rate cand hn]
    simp
  · rw [resolve_full_next c rate cand next hn] at h ⊢
    by_cases hc : c.encodeOk cand rate = true
    · by_cases hn2 : c.encodeOk next rate = true
      · simp only [hc, hn2, Bool.not_true, Bool.or_self, Bool.false_eq_true, if_false] at h ⊢
        by_cases hs : ComputeVmaf c cand rate < 0 ∨ ComputeVmaf c next rate < 0
        · rw [if_pos hs] at h ⊢
          intro a ha
          simp only [hc, hn2, eq_self_iff_true, if_true, List.append_assoc,
            List.mem_append, List.mem_cons, List.mem_singleton] at ha ⊢
          tauto
        · rw [if_neg hs] at h ⊢
          by_cases hcmp : ComputeVmaf c cand rate > ComputeVmaf c next rate
          · rw [if_pos hcmp] at h ⊢
            intro a ha
            simp only [hc, hn2, eq_self_iff_true, if_true, List.append_assoc,
              List.mem_append, List.mem_cons, List.mem_singleton] at ha ⊢
            tauto
          · rw [if_neg hcmp] at h ⊢
            intro a ha
            simp only [hc, hn2, eq_self_iff_true, if_true, List.append_assoc,
              List.mem_append, List.mem_cons, List.mem_singleton] at ha ⊢
            tauto
      · exfalso
        have hn2f : c.encodeOk next rate = false := by
          revert hn2
          cases c.encodeOk next rate <;> simp
        simp [hn2f] at h
    · exfalso
      have hcf : c.encodeOk cand rate = false := by
        revert hc
        cases c.encodeOk cand rate <;> simp
      simp [hcf] at h


lemma targetRates_1000 : GetTargetRates 1000 = [1000, 500] := by
  simp [GetTargetRates, IntMin, buildRates]

lemma targetRates_1500 : GetTargetRates 1500 = [1500, 1000, 500] := by
  simp [GetTargetRates, IntMin, buildRates]

/-- C1: for every successful walk (no error returned), the resolution heights
of the returned hull points are non-increasing along the hull. -/
theorem walk_resolution_monotone (c : Collaborator) (refRes : Resolution)
    (refRate : Int) (hsucc : (WalkConvexHull c refRes refRate).2 = none) :
    List.Chain' (fun p q => q.Resolution.Height ≤ p.Resolution.Height)
      (WalkConvexHull c refRes refRate).1 := by
  have h := walkFrom_heights c (GetTargetRates refRate) refRes
  rw [WalkConvexHull]
  have h2 : List.Chain' (fun a b => b ≤ a)
      (refRes.Height ::
        List.map (fun p => p.Resolution.Height)
          (walkFrom c refRes (GetTargetRates refRate)).1) := h
  exact (List.chain'_map _).mp h2.tail

theorem walk_resolution_monotone_witness :
    List.Chain' (fun p q => q.Resolution.Height ≤ p.Resolution.Height)
      (WalkConvexHull allGoodCollab ⟨2160, 3840⟩ 1000).1 :=
  walk_resolution_monotone allGoodCollab ⟨2160, 3840⟩ 1000
    (by rw [WalkConvexHull, targetRates_1000]; decide)

/-- C2: if the first k resolver calls of the walk succeed and the call for the
next target rate fails, the walk returns exactly the k hull points accumulated
so far together with that failure. -/
theorem walk_failure_cut (c : Collaborator) (refRes : Resolution) (refRate : Int)
    (k : Nat) (rate : Int) (rest : List Int) (e : String)
    (hdrop : (GetTargetRates refRate).drop k = rate :: rest)
    (hpre : (walkFrom c refRes ((GetTargetRates refRate).take k)).2 = none)
    (hfail : (GetOptimalResolutionForRate c rate
        (currentAfter c refRes ((GetTargetRates refRate).take k))).2 = some e) :
    WalkConvexHull c refRes refRate
        = ((walkFrom c refRes ((GetTargetRates refRate).take k)).1, some e) ∧
      (walkFrom c refRes ((GetTargetRates refRate).take k)).1.length = k := by
  constructor
  · exact walkFrom_fail_at c k (GetTargetRates refRate) refRes rate rest e hdrop hpre hfail
  · have hmap := walkFrom_rates c ((GetTargetRates refRate).take k) refRes hpre
    have hklen : k ≤ (GetTargetRates refRate).length := by
      by_contra hk
      rw [List.drop_eq_nil_of_le (by omega)] at hdrop
      cases hdrop
    have hlen := congrArg List.length hmap
    simp only [List.length_map, List.length_take] at hlen
    omega

theorem walk_failure_cut_witness :
    WalkConvexHull failAt500Collab ⟨2160, 3840⟩ 1000
        = ((walkFrom failAt500Collab ⟨2160, 3840⟩ ((GetTargetRates 1000).take 1)).1,
           some "failed to encode video") ∧
      (walkFrom failAt500Collab ⟨2160, 3840⟩ ((GetTargetRates 1000).take 1)).1.length = 1 :=
  walk_failure_cut failAt500Collab ⟨2160, 3840⟩ 1000 1 500 [] "failed to encode video"
    (by rw [targetRates_1000]; decide) (by rw [targetRates_1000]; decide)
    (by rw [targetRates_1000]; decide)

/-- C3: for every source rate at least 500, the generated target-rate list is
strictly decreasing, duplicate-free, and each element is a positive multiple of
500 lying between 500 and the minimum of the source rate and 10000. -/
theorem target_rates_spec (rate : Int) (hr : 500 ≤ rate) :
    List.Pairwise (fun a b => b < a) (GetTargetRates rate) ∧
    (GetTargetRates rate).Nodup ∧
    ∀ x ∈ GetTargetRates rate,
      500 ≤ x ∧ x ≤ IntMin rate 10000 ∧ ∃ k : Int, 1 ≤ k ∧ x = 500 * k :=
  targetRates_spec_aux rate

theorem target_rates_spec_witness :
    List.Pairwise (fun a b => b < a) (GetTargetRates 1700) ∧
    (GetTargetRates 1700).Nodup ∧
    ∀ x ∈ GetTargetRates 1700,
      500 ≤ x ∧ x ≤ IntMin 1700 10000 ∧ ∃ k : Int, 1 ≤ k ∧ x = 500 * k :=
  target_rates_spec 1700 (by norm_num)

/-- C4: on the fixed ladder, GetNextResolution yields the first (hence, by the
ladder's descending order, the highest) entry strictly below the input height;
it yields nothing exactly when the input height is at or below the lowest
entry's height 144; and iterating it from the top entry enumerates the whole
ladder in order, finally reporting no successor at the bottom entry. -/
theorem next_resolution_spec :
    (∀ (r res : Resolution), GetNextResolution r = some res →
      res ∈ resolutions ∧ res.Height < r.Height ∧
        ∀ b ∈ resolutions, b.Height < r.Height → b.Height ≤ res.Height) ∧
    (∀ r : Resolution, GetNextResolution r = none ↔ r.Height ≤ 144) ∧
    (⟨2160, 3840⟩ : Resolution) :: nextChain 10 ⟨2160, 3840⟩ = resolutions ∧
    GetNextResolution ⟨144, 256⟩ = none := by
  refine ⟨?_, getNext_none_iff, by decide, by decide⟩
  intro r res h
  exact ⟨getNext_mem h, getNext_height_lt h,
    find?_lt_maximal resolutions resolutions_descending r.Height res h⟩

theorem next_resolution_spec_witness :
    (⟨720, 1280⟩ : Resolution) ∈ resolutions ∧
    (⟨720, 1280⟩ : Resolution).Height < (⟨1080, 1920⟩ : Resolution).Height ∧
    GetNextResolution ⟨144, 256⟩ = none :=
  ⟨(next_resolution_spec.1 ⟨1080, 1920⟩ ⟨720, 1280⟩ (by decide)).1,
   (next_resolution_spec.1 ⟨1080, 1920⟩ ⟨720, 1280⟩ (by decide)).2.1,
   (next_resolution_spec.2.1 ⟨144, 256⟩).mpr (by norm_num)⟩

/-- C5: when both encodes succeed and both scores are valid, the resolver
succeeds and returns the point of whichever candidate scored strictly higher,
and on an exact tie it returns the next (strictly lower-height) resolution. -/
theorem resolve_tie_break (c : Collaborator) (rate : Int) (cand next : Resolution)
    (hnext : GetNextResolution cand = some next)
    (hce : c.encodeOk cand rate = true) (hne : c.encodeOk next rate = true)
    (hcs : 0 ≤ ComputeVmaf c cand rate) (hns : 0 ≤ ComputeVmaf c next rate) :
    (GetOptimalResolutionForRate c rate cand).2 = none ∧
    (ComputeVmaf c next rate < ComputeVmaf c cand rate →
      (GetOptimalResolutionForRate c rate cand).1
        = ⟨cand, rate, ComputeVmaf c cand rate⟩) ∧
    (ComputeVmaf c cand rate < ComputeVmaf c next rate →
      (GetOptimalResolutionForRate c rate cand).1
        = ⟨next, rate, ComputeVmaf c next rate⟩) ∧
    (ComputeVmaf c cand rate = ComputeVmaf c next rate →
      (GetOptimalResolutionForRate c rate cand).1
          = ⟨next, rate, ComputeVmaf c next rate⟩ ∧
        next.Height < cand.Height) := by
  rw [tie_break_aux c rate cand next hnext hce hne hcs hns]
  refine ⟨rfl, ?_, ?_, ?_⟩
  · intro h
    rw [if_pos h]
  · intro h
    rw [if_neg (lt_asymm h)]
  · intro h
    rw [if_neg (by rw [h]; exact lt_irrefl _)]
    exact ⟨rfl, getNext_height_lt hnext⟩

theorem resolve_tie_break_witness :
    (GetOptimalResolutionForRate tieCollab 800 ⟨720, 1280⟩).1
        = ⟨⟨540, 960⟩, 800, ComputeVmaf tieCollab ⟨540, 960⟩ 800⟩ ∧
    (⟨540, 960⟩ : Resolution).Height < (⟨720, 1280⟩ : Resolution).Height :=
  (resolve_tie_break tieCollab 800 ⟨720, 1280⟩ ⟨540, 960⟩ (by decide) rfl rfl
    (by decide) (by decide)).2.2.2 rfl

/-- C6: when the ladder has no entry below the candidate, the resolver
succeeds with the unchanged candidate resolution, the requested rate and the
sentinel score -1, and performs no encode or score operation and touches no
transient file. -/
theorem resolve_ladder_floor (c : Collaborator) (rate : Int) (cand : Resolution)
    (hnone : GetNextResolution cand = none) :
    GetOptimalResolutionForRateFull c rate cand =
      { point := ⟨cand, rate, -1⟩, error := none,
        encodesLaunched := [], scoresLaunched := [], created := [], removed := [] } :=
  resolve_floor_aux c rate cand hnone

theorem resolve_ladder_floor_witness :
    GetOptimalResolutionForRateFull allGoodCollab 700 ⟨144, 256⟩ =
      { point := ⟨⟨144, 256⟩, 700, -1⟩, error := none,
        encodesLaunched := [], scoresLaunched := [], created := [], removed := [] } :=
  resolve_ladder_floor allGoodCollab 700 ⟨144, 256⟩ (by decide)

/-- C7: when a next resolution exists and either encode fails or either score
is negative, the resolver returns the zero hull point together with an error,
never a point built from a single candidate. -/
theorem resolve_fail_no_point (c : Collaborator) (rate : Int) (cand next : Resolution)
    (hnext : GetNextResolution cand = some next)
    (h : c.encodeOk cand rate = false ∨ c.encodeOk next rate = false ∨
         ComputeVmaf c cand rate < 0 ∨ ComputeVmaf c next rate < 0) :
    (GetOptimalResolutionForRateFull c rate cand).point = zeroHullPoint ∧
    (GetOptimalResolutionForRateFull c rate cand).error.isSome = true :=
  resolve_fail_aux c rate cand next hnext h

theorem resolve_fail_no_point_witness :
    (GetOptimalResolutionForRateFull failAt500Collab 500 ⟨2160, 3840⟩).point
        = zeroHullPoint ∧
    (GetOptimalResolutionForRateFull failAt500Collab 500 ⟨2160, 3840⟩).error.isSome
        = true :=
  resolve_fail_no_point failAt500Collab 500 ⟨2160, 3840⟩ ⟨1440, 2560⟩ (by decide)
    (Or.inl (by decide))

/-- C8: for every successful walk, the hull carries exactly one point per
generated target rate: the rates of the hull points, in order, are exactly the
target-rate sequence, so both lists have the same length. -/
theorem walk_rate_alignment (c : Collaborator) (refRes : Resolution) (refRate : Int)
    (hsucc : (WalkConvexHull c refRes refRate).2 = none) :
    ((WalkConvexHull c refRes refRate).1).map (fun p => p.Rate)
        = GetTargetRates refRate ∧
      (WalkConvexHull c refRes refRate).1.length = (GetTargetRates refRate).length := by
  rw [WalkConvexHull] at hsucc ⊢
  have h := walkFrom_rates c (GetTargetRates refRate) refRes hsucc
  refine ⟨h, ?_⟩
  have := congrArg List.length h
  simpa using this

theorem walk_rate_alignment_witness :
    ((WalkConvexHull allGoodCollab ⟨1080, 1920⟩ 1500).1).map (fun p => p.Rate)
        = GetTargetRates 1500 ∧
      (WalkConvexHull allGoodCollab ⟨1080, 1920⟩ 1500).1.length
        = (GetTargetRates 1500).length :=
  walk_rate_alignment allGoodCollab ⟨1080, 1920⟩ 1500
    (by rw [WalkConvexHull, targetRates_1500]; decide)

/-- C9 (counterexample): with a collaborator that encodes 2160p but fails the
next encode, the resolver leaves a created artifact (the successfully encoded
file) that is never removed, refuting cleanup on every outcome. -/
theorem resolve_cleanup_counterexample :
    ¬ (∀ a ∈ (GetOptimalResolutionForRateFull leakCollab 1000 ⟨2160, 3840⟩).created,
        a ∈ (GetOptimalResolutionForRateFull leakCollab 1000 ⟨2160, 3840⟩).removed) := by
  decide

/-- C9 (amended): on every successful or score-failure outcome the resolver
removes all transient artifacts it created; only the encode-failure path
leaves the file of a successful encode behind. -/
theorem resolve_cleanup_amended (c : Collaborator) (rate : Int) (cand : Resolution)
    (h : (GetOptimalResolutionForRateFull c rate cand).error = none ∨
         (GetOptimalResolutionForRateFull c rate cand).error = some "failed to compute VMAF") :
    ∀ a ∈ (GetOptimalResolutionForRateFull c rate cand).created,
      a ∈ (GetOptimalResolutionForRateFull c rate cand).removed :=
  resolve_cleanup_aux c rate cand h

theorem resolve_cleanup_amended_witness :
    (GetOptimalResolutionForRateFull allGoodCollab 600 ⟨1440, 2560⟩).error = none ∧
    Artifact.encodedFile ⟨1440, 2560⟩ 600
        ∈ (GetOptimalResolutionForRateFull allGoodCollab 600 ⟨1440, 2560⟩).created ∧
    Artifact.encodedFile ⟨1440, 2560⟩ 600
        ∈ (GetOptimalResolutionForRateFull allGoodCollab 600 ⟨1440, 2560⟩).removed :=
  ⟨by decide, by decide,
   resolve_cleanup_amended allGoodCollab 600 ⟨1440, 2560⟩ (Or.inl (by decide))
     (Artifact.encodedFile ⟨1440, 2560⟩ 600) (by decide)⟩

/-- C10: every successful resolver call returns a point whose resolution is
either the candidate itself or the candidate's immediate next-lower ladder
entry: the walk never descends more than one ladder step per rate. -/
theorem resolve_single_step (c : Collaborator) (rate : Int) (cand : Resolution)
    (pt : ConvexHullPoint) (h : GetOptimalResolutionForRate c rate cand = (pt, none)) :
    pt.Resolution = cand ∨ GetNextResolution cand = some pt.Resolution :=
  (resolve_success_cases c rate cand pt h).2

theorem resolve_single_step_witness :
    (⟨⟨720, 1280⟩, 900, 50⟩ : ConvexHullPoint).Resolution = ⟨1080, 1920⟩ ∨
      GetNextResolution ⟨1080, 1920⟩
        = some (⟨⟨720, 1280⟩, 900, 50⟩ : ConvexHullPoint).Resolution :=
  resolve_single_step allGoodCollab 900 ⟨1080, 1920⟩ ⟨⟨720, 1280⟩, 900, 50⟩ (by decide)
